import Mathlib

/-!
Verification of the incremental collection controllers of the two workspace
screens (`Knowledge.svelte` and `Chats.svelte`): the search debouncer, the
search-pagination state machine, the sorted-filter view and the tag
reconciliation logic.  Every definition is a shallow embedding of the
corresponding TypeScript code; JavaScript peculiarities that matter for the
properties (truthiness of the empty array, `undefined` versus `null`, a
spread of `undefined` throwing a `TypeError`) are modelled explicitly.
-/

namespace Workspace

/-! ### Debouncer

`debounceSearch(callback, delay)` appears verbatim in both screens: it
clears any pending timer and arms a new one.  The type `α` stands for the
scheduled callback (identified with the value it will act on when it
fires).  `fired` records, in order, every callback execution. -/

structure DebouncerState (α : Type) where
  timer : Option (Nat × α)
  fired : List α
  deriving DecidableEq

/-- `debounceSearch`: `clearTimeout` drops the pending timer (its value is
discarded without firing) and `setTimeout(callback, delay)` arms a timer
due at `now + delay`. -/
def debounceSearch (now delay : Nat) (v : α) (s : DebouncerState α) : DebouncerState α :=
  { s with timer := some (now + delay, v) }

/-- The event loop reaching time `t`: a pending timer whose deadline has
passed fires its callback exactly once and is consumed. -/
def fireUpTo (t : Nat) (s : DebouncerState α) : DebouncerState α :=
  match s.timer with
  | some (d, v) => if d ≤ t then { timer := none, fired := s.fired ++ [v] } else s
  | none => s

/-- A sequence of `debounceSearch` calls at the given times, letting the
event loop run up to each call time first. -/
def runCalls (delay : Nat) : DebouncerState α → List (Nat × α) → DebouncerState α
  | s, [] => s
  | s, (t, v) :: rest => runCalls delay (debounceSearch t delay v (fireUpTo t s)) rest

/-- Arrival-time discipline: the calls are ordered in time and each arrives
strictly within `delay` of its predecessor. -/
def gapsOk (delay : Nat) : List (Nat × α) → Bool
  | [] => true
  | [_] => true
  | (t₁, _) :: (t₂, v) :: rest =>
      (t₁ ≤ t₂ && t₂ < t₁ + delay) && gapsOk delay ((t₂, v) :: rest)

/-- The Knowledge screen's `onDestroy` hook: `clearTimeout` on the pending
debounce timer, so nothing can fire afterwards. -/
def knowledgeOnDestroy (s : DebouncerState α) : DebouncerState α :=
  { s with timer := none }

/-- The Chats screen registers no `onDestroy` hook at all, so component
teardown leaves the debouncer state untouched. -/
def chatsOnDestroy (s : DebouncerState α) : DebouncerState α :=
  s

lemma fireUpTo_armed_late {t d : Nat} (v : α) (F : List α) (h : ¬ d ≤ t) :
    fireUpTo t ⟨some (d, v), F⟩ = ⟨some (d, v), F⟩ := by
  simp [fireUpTo, h]

lemma gapsOk_cons_cons {delay t₁ t₂ : Nat} {v₁ v₂ : α} {rest : List (Nat × α)}
    (h : gapsOk delay ((t₁, v₁) :: (t₂, v₂) :: rest) = true) :
    t₁ ≤ t₂ ∧ t₂ < t₁ + delay ∧ gapsOk delay ((t₂, v₂) :: rest) = true := by
  simp only [gapsOk, Bool.and_eq_true, decide_eq_true_eq] at h
  exact ⟨h.1.1, h.1.2, h.2⟩

/-- Running further calls from a state whose timer was armed by a call at
`t₀` neither fires anything nor keeps any value but the last one. -/
lemma runCalls_armed (delay : Nat) :
    ∀ (calls : List (Nat × α)) (t₀ : Nat) (v₀ : α) (F : List α),
      gapsOk delay ((t₀, v₀) :: calls) = true →
      runCalls delay ⟨some (t₀ + delay, v₀), F⟩ calls =
        ⟨some ((((t₀, v₀) :: calls).getLast (List.cons_ne_nil _ _)).1 + delay,
               (((t₀, v₀) :: calls).getLast (List.cons_ne_nil _ _)).2), F⟩ := by
  intro calls
  induction calls with
  | nil => intro t₀ v₀ F _; rfl
  | cons c rest ih =>
      intro t₀ v₀ F hg
      obtain ⟨t₁, v₁⟩ := c
      obtain ⟨h₁, h₂, h₃⟩ := gapsOk_cons_cons hg
      have hnofire : ¬ t₀ + delay ≤ t₁ := by omega
      have hstep :
          runCalls delay ⟨some (t₀ + delay, v₀), F⟩ ((t₁, v₁) :: rest) =
            runCalls delay ⟨some (t₁ + delay, v₁), F⟩ rest := by
        simp [runCalls, fireUpTo_armed_late _ _ hnofire, debounceSearch]
      rw [hstep, ih t₁ v₁ F h₃]
      simp [List.getLast_cons]

/-- C4. For every nonempty sequence of `debounceSearch` calls arriving
strictly within the debounce window of each other, exactly one callback
fires, carrying the value of the last call; the earlier pending values are
discarded without firing. -/
theorem debounce_exactly_one_fire (delay : Nat) (calls : List (Nat × α))
    (hne : calls ≠ []) (hg : gapsOk delay calls = true) :
    (fireUpTo ((calls.getLast hne).1 + delay)
        (runCalls delay ⟨none, []⟩ calls)).fired = [(calls.getLast hne).2] := by
  obtain ⟨⟨t₀, v₀⟩, rest, rfl⟩ : ∃ c r, calls = c :: r := by
    cases calls with
    | nil => exact absurd rfl hne
    | cons c r => exact ⟨c, r, rfl⟩
  have hstep :
      runCalls delay (⟨none, []⟩ : DebouncerState α) ((t₀, v₀) :: rest) =
        runCalls delay ⟨some (t₀ + delay, v₀), []⟩ rest := by
    simp [runCalls, fireUpTo, debounceSearch]
  rw [hstep, runCalls_armed delay rest t₀ v₀ [] hg]
  simp [fireUpTo]

/-- Witness for C4: the spec's example, keystrokes `"a"`, `"ab"`, `"abc"`
arriving 100 ms apart with a 500 ms window, fires exactly once with
`"abc"`. -/
theorem debounce_exactly_one_fire_witness :
    (fireUpTo 700 (runCalls 500 (⟨none, []⟩ : DebouncerState String)
        [(0, "a"), (100, "ab"), (200, "abc")])).fired = ["abc"] :=
  debounce_exactly_one_fire 500 [(0, "a"), (100, "ab"), (200, "abc")]
    (List.cons_ne_nil _ _) (by decide)

/-- C8 counterexample: on the Chats screen a debounce timer armed before
teardown still fires its callback afterwards (there is no `onDestroy`
cleanup), so the claim that no callback fires after teardown on every
screen is false. -/
theorem teardown_cancel_cex :
    (fireUpTo 600 (chatsOnDestroy
        (debounceSearch 0 500 "q" (⟨none, []⟩ : DebouncerState String)))).fired = ["q"] := by
  decide

/-- C8 amended: the Knowledge screen's `onDestroy` cancels the pending
timer, so no callback ever fires after its teardown; the Chats screen
installs no teardown cleanup at all, leaving the armed timer in place. -/
theorem teardown_cancel_amended :
    (∀ (s : DebouncerState α) (t : Nat),
        (fireUpTo t (knowledgeOnDestroy s)).fired = s.fired) ∧
    (∀ s : DebouncerState α, chatsOnDestroy s = s) := by
  constructor
  · intro s t; simp [knowledgeOnDestroy, fireUpTo]
  · intro s; rfl

/-! ### JavaScript string primitives

List-based embeddings of `toLowerCase`, `trim`, `includes` and
`localeCompare` (the latter modelled as code-point order, adequate for the
ASCII data in the claims).  They are kept executable so concrete instances
can be settled by `decide`. -/

/-- `String.prototype.toLowerCase` on ASCII letters. -/
def jsLowerChar (c : Char) : Char :=
  if 65 ≤ c.toNat ∧ c.toNat ≤ 90 then Char.ofNat (c.toNat + 32) else c

def jsToLower (s : String) : String :=
  ⟨s.data.map jsLowerChar⟩

def jsIsWhitespace (c : Char) : Bool :=
  c = ' ' || c = '\t' || c = '\n' || c = '\r'

/-- `String.prototype.trim`: strip whitespace from both ends. -/
def jsTrim (s : String) : String :=
  ⟨((s.data.dropWhile jsIsWhitespace).reverse.dropWhile jsIsWhitespace).reverse⟩

/-- `needle` occurs as a contiguous sublist of the second argument. -/
def isSubList (needle : List Char) : List Char → Bool
  | [] => needle.isEmpty
  | c :: rest => needle.isPrefixOf (c :: rest) || isSubList needle rest

/-- `hay.includes(needle)`. -/
def jsIncludes (hay needle : String) : Bool :=
  isSubList needle.data hay.data

def charListCompare : List Char → List Char → Int
  | [], [] => 0
  | [], _ :: _ => -1
  | _ :: _, [] => 1
  | a :: as, b :: bs =>
      if a.toNat < b.toNat then -1
      else if b.toNat < a.toNat then 1
      else charListCompare as bs

/-- `a.localeCompare(b)`, modelled as code-point comparison. -/
def localeCompare (a b : String) : Int :=
  charListCompare a.data b.data

/-! ### Chats screen: SortedFilterController

Embedding of `applyFiltersAndSort` from `Chats.svelte`.  `ChatData` mirrors
the TypeScript type: `title`, `updated_at`, `models` and `tags` are
optional, and the code reads them through the JavaScript defaults
`(chat.title || '')`, `(chat.updated_at || 0)`, `(chat.models || [])` and
`(chat.tags || [])`. -/

structure ChatData where
  id : String
  title : Option String
  updated_at : Option Nat
  models : Option (List String)
  tags : Option (List String)
  deriving DecidableEq

/-- The filter predicate of `applyFiltersAndSort`: the lowercased query is
a substring of the lowercased title, of the lowercased space-joined model
list, or of the lowercased space-joined tag list. -/
def chatMatches (lowerQuery : String) (chat : ChatData) : Bool :=
  let title := jsToLower (chat.title.getD "")
  let modelNames := jsToLower (String.intercalate " " (chat.models.getD []))
  let tagNames := jsToLower (String.intercalate " " (chat.tags.getD []))
  jsIncludes title lowerQuery || jsIncludes modelNames lowerQuery ||
    jsIncludes tagNames lowerQuery

/-- The comparator body of `applyFiltersAndSort`: `comparison` by the
selected key (`date`, `model` by first model name, `tag` by first tag),
zero for any other key. -/
def chatComparison (sortBy : String) (a b : ChatData) : Int :=
  if sortBy = "date" then (a.updated_at.getD 0 : Int) - (b.updated_at.getD 0 : Int)
  else if sortBy = "model" then
    localeCompare ((a.models.getD []).headD "") ((b.models.getD []).headD "")
  else if sortBy = "tag" then
    localeCompare ((a.tags.getD []).headD "") ((b.tags.getD []).headD "")
  else 0

/-- `sortOrder === 'asc' ? comparison : -comparison`. -/
def chatCompare (sortBy sortOrder : String) (a b : ChatData) : Int :=
  if sortOrder = "asc" then chatComparison sortBy a b else -(chatComparison sortBy a b)

/-- `applyFiltersAndSort` as a pure function of its inputs.  The source
first aliases `filtered = allChatsData`, filters only when the trimmed
query is nonempty (matching against the untrimmed lowercased query), and
then sorts a fresh copy `[...filtered]` with the comparator — the
authoritative array itself is never sorted in place.  The in-place sort of
the fresh copy is modelled by a stable merge sort, as mandated for
`Array.prototype.sort`. -/
def applyFiltersAndSort (query sortBy sortOrder : String)
    (allChatsData : List ChatData) : List ChatData :=
  let lowerQuery := jsToLower query
  let filtered :=
    if jsTrim query = "" then allChatsData
    else allChatsData.filter (chatMatches lowerQuery)
  List.mergeSort filtered (fun a b => chatCompare sortBy sortOrder a b ≤ 0)

/-- The component state touched by `applyFiltersAndSort`. -/
structure CState where
  query : String
  sortBy : String
  sortOrder : String
  allChatsData : List ChatData
  filteredChats : List ChatData
  deriving DecidableEq

/-- `applyFiltersAndSort` as the state transition it performs on the
component: it assigns `filteredChats` and nothing else. -/
def applyFiltersAndSortS (s : CState) : CState :=
  { s with filteredChats :=
      applyFiltersAndSort s.query s.sortBy s.sortOrder s.allChatsData }

/-- C9. For every record and every query whose trimmed text is nonempty,
the record appears in the derived view iff it is in the collection and the
lowercased query is a substring of its lowercased title, of its lowercased
joined model-name list, or of its lowercased joined tag list. -/
theorem filter_predicate_characterisation (query sortBy sortOrder : String)
    (allChatsData : List ChatData) (c : ChatData) (hq : jsTrim query ≠ "") :
    c ∈ applyFiltersAndSort query sortBy sortOrder allChatsData ↔
      c ∈ allChatsData ∧
        (jsIncludes (jsToLower (c.title.getD "")) (jsToLower query) ||
         jsIncludes (jsToLower (String.intercalate " " (c.models.getD []))) (jsToLower query) ||
         jsIncludes (jsToLower (String.intercalate " " (c.tags.getD []))) (jsToLower query)) = true := by
  unfold applyFiltersAndSort
  rw [(List.mergeSort_perm _ _).mem_iff]
  rw [if_neg hq, List.mem_filter]
  rfl

/-- Witness for C9: query `"proj"` matches both the chat titled
`"Project X"` (title substring) and the chat tagged `"project-tag"`
(tag substring). -/
theorem filter_predicate_characterisation_witness :
    (⟨"1", some "Project X", some 2, some [], some ["alpha"]⟩ : ChatData) ∈
      applyFiltersAndSort "proj" "date" "desc"
        [⟨"1", some "Project X", some 2, some [], some ["alpha"]⟩,
         ⟨"2", some "Other", some 1, some [], some ["project-tag"]⟩] ∧
    (⟨"2", some "Other", some 1, some [], some ["project-tag"]⟩ : ChatData) ∈
      applyFiltersAndSort "proj" "date" "desc"
        [⟨"1", some "Project X", some 2, some [], some ["alpha"]⟩,
         ⟨"2", some "Other", some 1, some [], some ["project-tag"]⟩] :=
  ⟨(filter_predicate_characterisation "proj" "date" "desc" _ _ (by decide)).mpr (by decide),
   (filter_predicate_characterisation "proj" "date" "desc" _ _ (by decide)).mpr (by decide)⟩

/-- C10. `applyFiltersAndSort` writes only `filteredChats`: the
authoritative collection `allChatsData` (membership and order) and every
other field are left exactly as they were, and the derived view is the
filter of the collection followed by a stable sort of a fresh copy. -/
theorem applyFiltersAndSort_frame (s : CState) :
    (applyFiltersAndSortS s).allChatsData = s.allChatsData ∧
    (applyFiltersAndSortS s).query = s.query ∧
    (applyFiltersAndSortS s).sortBy = s.sortBy ∧
    (applyFiltersAndSortS s).sortOrder = s.sortOrder ∧
    (applyFiltersAndSortS s).filteredChats =
      List.mergeSort
        (if jsTrim s.query = "" then s.allChatsData
         else s.allChatsData.filter (chatMatches (jsToLower s.query)))
        (fun a b => chatCompare s.sortBy s.sortOrder a b ≤ 0) :=
  ⟨rfl, rfl, rfl, rfl, rfl⟩

/-! ### Chats screen: TagReconciler

Embedding of the tag-set diff and the commit inside `saveTag` from
`Chats.svelte`. -/

/-- `Array.from(new Set(l))`: deduplication keeping the first occurrence,
written with an accumulator of already-seen elements. -/
def jsSetDedupAux (seen : List String) : List String → List String
  | [] => []
  | a :: l =>
      if a ∈ seen then jsSetDedupAux seen l
      else a :: jsSetDedupAux (a :: seen) l

def jsSetDedup (l : List String) : List String :=
  jsSetDedupAux [] l

/-- The normalisation of the proposed tags inside `saveTag`: trim each
entry, drop the empty ones, deduplicate via `new Set`. -/
def normalizeProposed (selectedTagsForChat : List String) : List String :=
  jsSetDedup ((selectedTagsForChat.map jsTrim).filter (fun t => t ≠ ""))

/-- The diff inside `saveTag`: `(tagsToRemove, tagsToAdd)`, where
`tagsToRemove` is the baseline minus the normalised proposal and
`tagsToAdd` is the normalised proposal minus the baseline
(`includes` is membership). -/
def tagDiff (currentTags selectedTagsForChat : List String) :
    List String × List String :=
  let newTags := normalizeProposed selectedTagsForChat
  (currentTags.filter (fun tag => decide (tag ∉ newTags)),
   newTags.filter (fun tag => decide (tag ∉ currentTags)))

/-- `normalizeTags` from `Chats.svelte`, specialised to a string response:
`.filter(Boolean)` drops empty strings. -/
def normalizeTags (tagsResponse : List String) : List String :=
  tagsResponse.filter (fun t => t ≠ "")

/-- `.catch(() => {})` on a single remove operation: whatever the
operation's outcome, the resulting promise fulfils. -/
def catchSwallow (_result : Bool) : Bool :=
  true

/-- `Promise.all` over the remove batch (each wrapped in
`.catch(() => {})`) and the add batch (not wrapped): the combined promise
fulfils iff every component does. -/
def batchFulfilled (removeOk addOk : String → Bool)
    (tagsToRemove tagsToAdd : List String) : Bool :=
  tagsToRemove.all (fun t => catchSwallow (removeOk t)) && tagsToAdd.all addOk

/-- Outcome of one `saveTag` commit: which mutations were issued, whether
the authoritative re-read ran, whether the commit reported success, and
the local tag state afterwards. -/
structure TagCommitOutcome where
  issuedRemoves : List String
  issuedAdds : List String
  rereadDone : Bool
  success : Bool
  finalTags : List String
  deriving DecidableEq

/-- The commit inside `saveTag`: both batches are issued up-front and
awaited through `Promise.all`; if the combined promise rejects (which, by
`catchSwallow`, only a failed add can cause) control jumps to the `catch`
block, skipping the re-read and leaving `chat.tags` untouched; otherwise
the authoritative tag list is re-read and replaces the local state. -/
def saveTag (currentTags selectedTagsForChat : List String)
    (removeOk addOk : String → Bool) (serverTags : List String) :
    TagCommitOutcome :=
  if batchFulfilled removeOk addOk (tagDiff currentTags selectedTagsForChat).1
      (tagDiff currentTags selectedTagsForChat).2 then
    { issuedRemoves := (tagDiff currentTags selectedTagsForChat).1,
      issuedAdds := (tagDiff currentTags selectedTagsForChat).2,
      rereadDone := true, success := true, finalTags := normalizeTags serverTags }
  else
    { issuedRemoves := (tagDiff currentTags selectedTagsForChat).1,
      issuedAdds := (tagDiff currentTags selectedTagsForChat).2,
      rereadDone := false, success := false, finalTags := currentTags }

lemma mem_jsSetDedupAux :
    ∀ (l seen : List String) (x : String),
      x ∈ jsSetDedupAux seen l ↔ x ∈ l ∧ x ∉ seen := by
  intro l
  induction l with
  | nil => intro seen x; simp [jsSetDedupAux]
  | cons a l ih =>
      intro seen x
      by_cases ha : a ∈ seen
      · rw [jsSetDedupAux, if_pos ha, ih]
        constructor
        · rintro ⟨hx, hs⟩; exact ⟨List.mem_cons_of_mem _ hx, hs⟩
        · rintro ⟨hx, hs⟩
          rcases List.mem_cons.mp hx with rfl | hx
          · exact absurd ha hs
          · exact ⟨hx, hs⟩
      · rw [jsSetDedupAux, if_neg ha]
        simp only [List.mem_cons, ih]
        constructor
        · rintro (rfl | ⟨hx, hs⟩)
          · exact ⟨Or.inl rfl, ha⟩
          · exact ⟨Or.inr hx, fun h => hs (Or.inr h)⟩
        · rintro ⟨rfl | hx, hs⟩
          · exact Or.inl rfl
          · by_cases hxa : x = a
            · exact Or.inl hxa
            · exact Or.inr ⟨hx, fun h => h.elim hxa hs⟩

lemma nodup_jsSetDedupAux :
    ∀ (l seen : List String), (jsSetDedupAux seen l).Nodup := by
  intro l
  induction l with
  | nil => intro seen; simp [jsSetDedupAux]
  | cons a l ih =>
      intro seen
      by_cases ha : a ∈ seen
      · rw [jsSetDedupAux, if_pos ha]; exact ih seen
      · rw [jsSetDedupAux, if_neg ha]
        refine List.nodup_cons.mpr ⟨?_, ih (a :: seen)⟩
        intro hmem
        exact ((mem_jsSetDedupAux l (a :: seen) a).mp hmem).2 (List.mem_cons_self a seen)

lemma mem_normalizeProposed (p : List String) (t : String) :
    t ∈ normalizeProposed p ↔ t ∈ p.map jsTrim ∧ t ≠ "" := by
  unfold normalizeProposed jsSetDedup
  rw [mem_jsSetDedupAux]
  simp [List.mem_filter]

/-- C5 counterexample: `diff(baseline, baseline)` is not empty for every
baseline — a baseline holding the untrimmed tag `" a "` is diffed against
its own normalisation, yielding a removal of `" a "` and an addition of
`"a"`. -/
theorem tag_diff_idempotence_cex :
    tagDiff [" a "] [" a "] = ([" a "], ["a"]) ∧
      tagDiff [" a "] [" a "] ≠ (([] : List String), ([] : List String)) := by
  exact ⟨rfl, by decide⟩

/-- C5 amended: `diff` is the pure set difference against the normalised
proposal (trimmed, empties and duplicates discarded); it is idempotent on
every baseline whose tags are already trimmed and nonempty (in particular
on every baseline the normalisation can produce), and the spec's concrete
example holds. -/
theorem tag_diff_amended :
    (∀ (b p : List String) (t : String),
        t ∈ (tagDiff b p).1 ↔ t ∈ b ∧ t ∉ normalizeProposed p) ∧
    (∀ (b p : List String) (t : String),
        t ∈ (tagDiff b p).2 ↔ t ∈ normalizeProposed p ∧ t ∉ b) ∧
    (∀ (p : List String) (t : String),
        (t ∈ normalizeProposed p ↔ t ∈ p.map jsTrim ∧ t ≠ "") ∧
        (normalizeProposed p).Nodup) ∧
    (∀ b : List String, (∀ t ∈ b, jsTrim t = t ∧ t ≠ "") →
        tagDiff b b = (([] : List String), ([] : List String))) ∧
    tagDiff ["a", "b"] ["b", "c", " c ", ""] = (["a"], ["c"]) := by
  refine ⟨?_, ?_, ?_, ?_, by rfl⟩
  · intro b p t
    simp [tagDiff, List.mem_filter]
  · intro b p t
    simp [tagDiff, List.mem_filter]
  · intro p t
    exact ⟨mem_normalizeProposed p t, nodup_jsSetDedupAux _ _⟩
  · intro b hb
    have hmem : ∀ t, t ∈ normalizeProposed b ↔ t ∈ b := by
      intro t
      rw [mem_normalizeProposed]
      constructor
      · rintro ⟨hmap, hne⟩
        obtain ⟨u, hu, rfl⟩ := List.mem_map.mp hmap
        rw [(hb u hu).1]
        exact hu
      · intro ht
        exact ⟨List.mem_map.mpr ⟨t, ht, (hb t ht).1⟩, (hb t ht).2⟩
    unfold tagDiff
    refine Prod.ext ?_ ?_
    · simp only [List.filter_eq_nil_iff]
      intro t ht
      simp [(hmem t).mpr ht]
    · simp only [List.filter_eq_nil_iff]
      intro t ht
      simp [(hmem t).mp ht]

/-- Witness for C5 amended: the idempotence branch at the trimmed baseline
`["x", "y"]`, together with the removal characterisation at the spec's
example. -/
theorem tag_diff_amended_witness :
    tagDiff ["x", "y"] ["x", "y"] = (([] : List String), ([] : List String)) ∧
      ("a" ∈ (tagDiff ["a", "b"] ["b", "c", " c ", ""]).1 ↔
        "a" ∈ ["a", "b"] ∧ "a" ∉ normalizeProposed ["b", "c", " c ", ""]) :=
  ⟨tag_diff_amended.2.2.2.1 ["x", "y"] (by decide),
   tag_diff_amended.1 ["a", "b"] ["b", "c", " c ", ""] "a"⟩

/-- C6 counterexample: with baseline `["a"]` and proposal `["b", "c"]`,
if adding `"b"` fails the commit's `Promise.all` rejects and control jumps
to the `catch` block: the authoritative re-read never runs (contradicting
the claim that the commit still proceeds to the re-read), even though both
adds had already been issued. -/
theorem commit_reread_cex :
    (saveTag ["a"] ["b", "c"] (fun _ => true) (fun t => t == "c") ["sv"]).rereadDone
        = false ∧
    (saveTag ["a"] ["b", "c"] (fun _ => true) (fun t => t == "c") ["sv"]).issuedAdds
        = ["b", "c"] ∧
    (saveTag ["a"] ["b", "c"] (fun _ => true) (fun t => t == "c") ["sv"]).finalTags
        = ["a"] := by
  decide

/-- C6 amended: every remove and every add is issued up-front; a failed
remove is swallowed by its `.catch` and never affects the outcome (the
commit succeeds and re-reads the server tag list for any remove results,
as long as all adds succeed); a failed add makes the batch reject, which
aborts the commit before the re-read and leaves the local tag state at the
baseline. -/
theorem commit_error_policy_amended :
    ∀ (currentTags selectedTagsForChat : List String)
      (removeOk addOk : String → Bool) (serverTags : List String),
      (saveTag currentTags selectedTagsForChat removeOk addOk serverTags).issuedRemoves
          = (tagDiff currentTags selectedTagsForChat).1 ∧
      (saveTag currentTags selectedTagsForChat removeOk addOk serverTags).issuedAdds
          = (tagDiff currentTags selectedTagsForChat).2 ∧
      ((∀ t ∈ (tagDiff currentTags selectedTagsForChat).2, addOk t = true) →
        (saveTag currentTags selectedTagsForChat removeOk addOk serverTags).success = true ∧
        (saveTag currentTags selectedTagsForChat removeOk addOk serverTags).rereadDone = true ∧
        (saveTag currentTags selectedTagsForChat removeOk addOk serverTags).finalTags
          = normalizeTags serverTags) ∧
      ((∃ t ∈ (tagDiff currentTags selectedTagsForChat).2, addOk t = false) →
        (saveTag currentTags selectedTagsForChat removeOk addOk serverTags).success = false ∧
        (saveTag currentTags selectedTagsForChat removeOk addOk serverTags).rereadDone = false ∧
        (saveTag currentTags selectedTagsForChat removeOk addOk serverTags).finalTags
          = currentTags) := by
  intro currentTags selectedTagsForChat removeOk addOk serverTags
  have hbatch : batchFulfilled removeOk addOk
      (tagDiff currentTags selectedTagsForChat).1
      (tagDiff currentTags selectedTagsForChat).2
      = (tagDiff currentTags selectedTagsForChat).2.all addOk := by
    simp [batchFulfilled, catchSwallow]
  refine ⟨?_, ?_, ?_, ?_⟩
  · unfold saveTag; split <;> rfl
  · unfold saveTag; split <;> rfl
  · intro hall
    have hcond : batchFulfilled removeOk addOk
        (tagDiff currentTags selectedTagsForChat).1
        (tagDiff currentTags selectedTagsForChat).2 = true := by
      rw [hbatch, List.all_eq_true]
      exact hall
    unfold saveTag
    rw [if_pos hcond]
    exact ⟨rfl, rfl, rfl⟩
  · rintro ⟨t, ht, hfail⟩
    have hcond : batchFulfilled removeOk addOk
        (tagDiff currentTags selectedTagsForChat).1
        (tagDiff currentTags selectedTagsForChat).2 = false := by
      rw [hbatch, List.all_eq_false]
      exact ⟨t, ht, by simp [hfail]⟩
    unfold saveTag
    rw [if_neg (by simp [hcond])]
    exact ⟨rfl, rfl, rfl⟩

/-- Witness for C6 amended: a remove operation that fails (its `removeOk`
is constantly false) does not keep the commit from succeeding and
re-reading, while a failing add aborts before the re-read. -/
theorem commit_error_policy_amended_witness :
    ((saveTag ["a", "b"] ["b", "c"] (fun _ => false) (fun _ => true) ["b", "c"]).success
        = true ∧
     (saveTag ["a", "b"] ["b", "c"] (fun _ => false) (fun _ => true) ["b", "c"]).rereadDone
        = true ∧
     (saveTag ["a", "b"] ["b", "c"] (fun _ => false) (fun _ => true) ["b", "c"]).finalTags
        = normalizeTags ["b", "c"]) ∧
    ((saveTag ["a"] ["b"] (fun _ => true) (fun _ => false) ["sv"]).success = false ∧
     (saveTag ["a"] ["b"] (fun _ => true) (fun _ => false) ["sv"]).rereadDone = false ∧
     (saveTag ["a"] ["b"] (fun _ => true) (fun _ => false) ["sv"]).finalTags = ["a"]) :=
  ⟨(commit_error_policy_amended ["a", "b"] ["b", "c"] (fun _ => false) (fun _ => true)
      ["b", "c"]).2.2.1 (by decide),
   (commit_error_policy_amended ["a"] ["b"] (fun _ => true) (fun _ => false)
      ["sv"]).2.2.2 (by decide)⟩

/-! ### Knowledge screen: SearchPaginationController

Embedding of the pagination state machine of `Knowledge.svelte`.  The
component variables keep their source names.  JavaScript `null` and
`undefined` are distinguished because the code distinguishes them
(`items === null`, `total !== null`, `items ?? []`, truthiness of `[]`).
Asynchrony is modelled by splitting `getItemsPage` into its synchronous
head (set the loading flag and issue the request) and the continuation
after `await searchKnowledgeBases` resolves; a world holds the component
state, the pending debounce timer and the in-flight requests, and a trace
of events drives it. -/

/-- The `items` variable: `null` before the first page of an epoch,
`undefined` after a failed first fetch (`pageItems` is `undefined` then),
otherwise an array. -/
inductive ItemsVal (α : Type) where
  | jsNull
  | jsUndef
  | arr (l : List α)
  deriving DecidableEq

/-- `items === null`. -/
def ItemsVal.isNull : ItemsVal α → Bool
  | .jsNull => true
  | _ => false

/-- JavaScript truthiness of `items`: any array is truthy (even the empty
one), `null` and `undefined` are falsy. -/
def itemsTruthy : ItemsVal α → Bool
  | .arr _ => true
  | _ => false

/-- `items ?? []`, and the element view of an array value. -/
def itemsOrEmpty : ItemsVal α → List α
  | .arr l => l
  | _ => []

/-- The `total` variable: `null` initially, `undefined` after a failed
fetch (the `.catch` handler returns `[]`, whose `.total` is `undefined`),
otherwise the declared total. -/
inductive TotalVal where
  | jsNull
  | jsUndef
  | num (n : Nat)
  deriving DecidableEq

/-- `total !== null` is false exactly on `jsNull`. -/
def TotalVal.isNull : TotalVal → Bool
  | .jsNull => true
  | _ => false

/-- The component variables of the Knowledge screen that the pagination
logic reads and writes (post-mount: `loaded` is true and `isInitialLoad`
false for good). -/
structure KState (α : Type) where
  page : Nat
  query : String
  viewOption : String
  items : ItemsVal α
  total : TotalVal
  allItemsLoaded : Bool
  itemsLoading : Bool
  hasLoadedInitialPage : Bool
  lastQuery : String
  lastViewOption : String
  deriving DecidableEq

/-- `reset()`. -/
def reset (s : KState α) : KState α :=
  { s with
    page := 1, items := ItemsVal.jsNull, total := TotalVal.jsNull,
    allItemsLoaded := false, itemsLoading := false, hasLoadedInitialPage := false }

/-- An in-flight `searchKnowledgeBases` request, carrying the arguments it
was issued with. -/
structure FetchReq where
  id : Nat
  query : String
  viewOption : String
  page : Nat
  deriving DecidableEq

/-- The component together with its timer and its in-flight requests.
`issued` is the log of every request ever issued (for counting fetches);
`crashed` records an escaped `TypeError`. -/
structure KWorld (α : Type) where
  st : KState α
  timer : Option Nat
  pending : List FetchReq
  nextId : Nat
  issued : List FetchReq
  crashed : Bool
  deriving DecidableEq

/-- The synchronous head of `getItemsPage`: `itemsLoading = true` and the
`searchKnowledgeBases(token, query, viewOption, page)` call is issued with
the current values of those variables. -/
def startGetItemsPage (w : KWorld α) : KWorld α :=
  { w with
    st := { w.st with itemsLoading := true },
    pending := w.pending ++ [⟨w.nextId, w.st.query, w.st.viewOption, w.st.page⟩],
    issued := w.issued ++ [⟨w.nextId, w.st.query, w.st.viewOption, w.st.page⟩],
    nextId := w.nextId + 1 }

/-- `init()`: `reset()` then `getItemsPage()`. -/
def kInit (w : KWorld α) : KWorld α :=
  startGetItemsPage { w with st := reset w.st }

/-- `loadMoreItems()`: no-op when everything is loaded or a fetch is in
flight, no-op when the first page has not completed (`!hasLoadedInitialPage
|| items === null`), otherwise `page += 1` and a fetch. -/
def loadMoreItems (w : KWorld α) : KWorld α :=
  if w.st.allItemsLoaded || w.st.itemsLoading then w
  else if !w.st.hasLoadedInitialPage || w.st.items.isNull then w
  else startGetItemsPage { w with st := { w.st with page := w.st.page + 1 } }

/-- The continuation of `getItemsPage` after `await searchKnowledgeBases`.
`res` is `some (pageItems, total)` on fulfilment and `none` on rejection —
in which case the `.catch` handler has already produced the empty array
`[]`, which is truthy, so the `if (res)` body still runs with `res.total`
and `res.items` both `undefined`: `total` is clobbered to `undefined`, and
spreading the `undefined` page items into an existing array throws a
`TypeError` that aborts the function before `itemsLoading = false`.
Returns the new state and whether a `TypeError` escaped. -/
def getItemsPageFinish (res : Option (List α × Nat)) (s : KState α) :
    KState α × Bool :=
  match res with
  | some (pageItems, tot) =>
      let items' :=
        if itemsTruthy s.items then ItemsVal.arr (itemsOrEmpty s.items ++ pageItems)
        else ItemsVal.arr pageItems
      let allLoaded :=
        decide (pageItems.length = 0) || decide ((itemsOrEmpty items').length ≥ tot)
      ({ s with
          total := TotalVal.num tot,
          items := items',
          allItemsLoaded := allLoaded,
          hasLoadedInitialPage := if s.page = 1 then true else s.hasLoadedInitialPage,
          itemsLoading := false }, false)
  | none =>
      if itemsTruthy s.items then
        ({ s with total := TotalVal.jsUndef }, true)
      else
        ({ s with
            total := TotalVal.jsUndef,
            items := ItemsVal.jsUndef,
            allItemsLoaded := true,
            hasLoadedInitialPage := if s.page = 1 then true else s.hasLoadedInitialPage,
            itemsLoading := false }, false)

/-- Resolution of the in-flight request `id`: its continuation runs
against the component state current at resolution time.  A resolution for
an unknown id is a no-op. -/
def resolveFetch (id : Nat) (res : Option (List α × Nat)) (w : KWorld α) :
    KWorld α :=
  if w.pending.any (fun r => r.id == id) then
    { w with
      st := (getItemsPageFinish res w.st).1,
      pending := w.pending.filter (fun r => r.id != id),
      crashed := w.crashed || (getItemsPageFinish res w.st).2 }
  else w

/-- The discrete events the component reacts to: a keystroke in the search
box at time `t`, the debounce timer deadline being reached, a filter
change, a Load More click, and the resolution of an in-flight fetch. -/
inductive KEvent (α : Type) where
  | keystroke (t : Nat) (q : String)
  | fireTimer (t : Nat)
  | changeView (v : String)
  | clickLoadMore
  | resolveOk (id : Nat) (pageItems : List α) (total : Nat)
  | resolveFail (id : Nat)
  deriving DecidableEq

/-- One event step.  A keystroke runs the reactive statement on `query`:
when the value actually changed, `lastQuery` is updated and the debounce
timer is rearmed for 500 ms.  The timer firing re-checks
`query === lastQuery` before calling `init()`.  A filter change cancels
the pending timer and calls `init()` immediately. -/
def kStep (w : KWorld α) : KEvent α → KWorld α
  | .keystroke t q =>
      if q ≠ w.st.lastQuery then
        { w with st := { w.st with query := q, lastQuery := q }, timer := some (t + 500) }
      else { w with st := { w.st with query := q } }
  | .fireTimer t =>
      match w.timer with
      | some d =>
          if d ≤ t then
            if w.st.query = w.st.lastQuery then kInit { w with timer := none }
            else { w with timer := none }
          else w
      | none => w
  | .changeView v =>
      if v ≠ w.st.lastViewOption then
        kInit { w with
                st := { w.st with viewOption := v, lastViewOption := v },
                timer := none }
      else { w with st := { w.st with viewOption := v } }
  | .clickLoadMore => loadMoreItems w
  | .resolveOk id pageItems tot => resolveFetch id (some (pageItems, tot)) w
  | .resolveFail id => resolveFetch id none w

/-- A trace of events. -/
def kRun (w : KWorld α) (evs : List (KEvent α)) : KWorld α :=
  evs.foldl kStep w

/-- The component state right after mount (`query` empty, the stored
view option modelled as empty). -/
def kState0 : KState α :=
  { page := 1, query := "", viewOption := "", items := ItemsVal.jsNull,
    total := TotalVal.jsNull, allItemsLoaded := false, itemsLoading := false,
    hasLoadedInitialPage := false, lastQuery := "", lastViewOption := "" }

/-- The world right after `onMount` ran `init()`. -/
def kWorld0 : KWorld α :=
  kInit { st := kState0, timer := none, pending := [], nextId := 0,
          issued := [], crashed := false }

/-- The template condition under which the Load More button is rendered:
`items !== null && total !== null`, a nonempty item list, and
`!allItemsLoaded`. -/
def showLoadMore (s : KState α) : Bool :=
  !s.items.isNull && !s.total.isNull &&
    decide ((itemsOrEmpty s.items).length ≠ 0) && !s.allItemsLoaded

lemma getItemsPageFinish_ok_items (pageItems : List α) (tot : Nat) (s : KState α) :
    (getItemsPageFinish (some (pageItems, tot)) s).1.items =
      ItemsVal.arr (itemsOrEmpty s.items ++ pageItems) := by
  cases hv : s.items <;>
    simp [getItemsPageFinish, itemsTruthy, itemsOrEmpty, hv]

/-- Invariant of reachable worlds: `items === null` only while the first
page of the current epoch has not completed. -/
def KInv (w : KWorld α) : Prop :=
  w.st.items = ItemsVal.jsNull → w.st.hasLoadedInitialPage = false

lemma kInv_kInit (w : KWorld α) : KInv (kInit w) :=
  fun _ => rfl

lemma kInv_startGet (w : KWorld α) (h : KInv w) :
    KInv (startGetItemsPage w) :=
  fun hx => h hx

lemma kInv_loadMoreItems (w : KWorld α) (h : KInv w) :
    KInv (loadMoreItems w) := by
  unfold loadMoreItems
  split
  · exact h
  · split
    · exact h
    · exact fun hx => h hx

lemma kInv_resolveFetch (id : Nat) (res : Option (List α × Nat)) (w : KWorld α)
    (h : KInv w) : KInv (resolveFetch id res w) := by
  unfold resolveFetch
  split
  · intro hx
    cases res with
    | some pr =>
        obtain ⟨pageItems, tot⟩ := pr
        cases hv : w.st.items <;>
          simp [getItemsPageFinish, itemsTruthy, hv] at hx
    | none =>
        cases hv : w.st.items <;>
          simp [getItemsPageFinish, itemsTruthy, hv] at hx
  · exact h

lemma kInv_kStep (w : KWorld α) (e : KEvent α) (h : KInv w) : KInv (kStep w e) := by
  cases e with
  | keystroke t q =>
      simp only [kStep]
      split
      · exact fun hx => h hx
      · exact fun hx => h hx
  | fireTimer t =>
      rcases htm : w.timer with _ | d
      · have hred : kStep w (KEvent.fireTimer t) = w := by simp [kStep, htm]
        rw [hred]; exact h
      · by_cases hd : d ≤ t
        · by_cases hq : w.st.query = w.st.lastQuery
          · have hred : kStep w (KEvent.fireTimer t) = kInit { w with timer := none } := by
              simp [kStep, htm, hd, hq]
            rw [hred]; exact kInv_kInit _
          · have hred : kStep w (KEvent.fireTimer t) = { w with timer := none } := by
              simp [kStep, htm, hd, hq]
            rw [hred]; exact fun hx => h hx
        · have hred : kStep w (KEvent.fireTimer t) = w := by simp [kStep, htm, hd]
          rw [hred]; exact h
  | changeView v =>
      simp only [kStep]
      split
      · exact kInv_kInit _
      · exact fun hx => h hx
  | clickLoadMore => exact kInv_loadMoreItems w h
  | resolveOk id pageItems tot => exact kInv_resolveFetch id _ w h
  | resolveFail id => exact kInv_resolveFetch id none w h

lemma kInv_kRun_aux : ∀ (evs : List (KEvent α)) (w : KWorld α),
    KInv w → KInv (kRun w evs) := by
  intro evs
  induction evs with
  | nil => exact fun w h => h
  | cons e rest ih => exact fun w h => ih (kStep w e) (kInv_kStep w e h)

lemma kInv_kRun (evs : List (KEvent α)) : KInv (kRun kWorld0 evs) :=
  kInv_kRun_aux evs kWorld0 (kInv_kInit _)

/-- C7. In every reachable world, `loadMoreItems` is a no-op (no state
change, no fetch issued) whenever everything is loaded, or a fetch is in
flight, or the first page of the current epoch has not completed;
otherwise it increments the page cursor and issues exactly one fetch —
and a second call before that fetch resolves is a no-op, so two calls in
rapid succession issue exactly one fetch. -/
theorem loadMoreItems_guards (evs : List (KEvent α)) :
    ((kRun kWorld0 evs).st.allItemsLoaded = true ∨
        (kRun kWorld0 evs).st.itemsLoading = true ∨
        (kRun kWorld0 evs).st.hasLoadedInitialPage = false →
      loadMoreItems (kRun kWorld0 evs) = kRun kWorld0 evs) ∧
    ((kRun kWorld0 evs).st.allItemsLoaded = false →
      (kRun kWorld0 evs).st.itemsLoading = false →
      (kRun kWorld0 evs).st.hasLoadedInitialPage = true →
      (loadMoreItems (kRun kWorld0 evs)).st.page = (kRun kWorld0 evs).st.page + 1 ∧
      (loadMoreItems (kRun kWorld0 evs)).issued =
        (kRun kWorld0 evs).issued ++
          [⟨(kRun kWorld0 evs).nextId, (kRun kWorld0 evs).st.query,
            (kRun kWorld0 evs).st.viewOption, (kRun kWorld0 evs).st.page + 1⟩] ∧
      loadMoreItems (loadMoreItems (kRun kWorld0 evs)) =
        loadMoreItems (kRun kWorld0 evs)) := by
  have hinv : KInv (kRun kWorld0 evs) := kInv_kRun evs
  constructor
  · rintro (h | h | h)
    · simp [loadMoreItems, h]
    · simp [loadMoreItems, h]
    · cases hA : (kRun kWorld0 evs).st.allItemsLoaded <;>
        cases hL : (kRun kWorld0 evs).st.itemsLoading <;>
        simp [loadMoreItems, hA, hL, h]
  · intro hA hL hH
    have hnn : (kRun kWorld0 evs).st.items.isNull = false := by
      cases hv : (kRun kWorld0 evs).st.items with
      | jsNull =>
          have hc := hinv hv
          rw [hH] at hc
          exact Bool.noConfusion hc
      | jsUndef => simp [ItemsVal.isNull]
      | arr l => simp [ItemsVal.isNull]
    have hred : loadMoreItems (kRun kWorld0 evs) =
        startGetItemsPage
          { kRun kWorld0 evs with
            st := { (kRun kWorld0 evs).st with page := (kRun kWorld0 evs).st.page + 1 } } := by
      simp [loadMoreItems, hA, hL, hH, hnn]
    rw [hred]
    refine ⟨rfl, rfl, ?_⟩
    simp [loadMoreItems, startGetItemsPage]

/-- Witness for C7: after the initial page resolved (one item, declared
total three), Load More advances the page to two, issues exactly one
fetch for page two, and an immediate second call is a no-op. -/
theorem loadMoreItems_guards_witness :
    (loadMoreItems (kRun kWorld0 [KEvent.resolveOk 0 [10] 3])).st.page =
      (kRun kWorld0 [KEvent.resolveOk 0 [10] 3]).st.page + 1 ∧
    (loadMoreItems (kRun kWorld0 [KEvent.resolveOk 0 [10] 3])).issued =
      (kRun kWorld0 [KEvent.resolveOk 0 [10] 3]).issued ++
        [⟨(kRun kWorld0 [KEvent.resolveOk 0 [10] 3]).nextId,
          (kRun kWorld0 [KEvent.resolveOk 0 [10] 3]).st.query,
          (kRun kWorld0 [KEvent.resolveOk 0 [10] 3]).st.viewOption,
          (kRun kWorld0 [KEvent.resolveOk 0 [10] 3]).st.page + 1⟩] ∧
    loadMoreItems (loadMoreItems (kRun kWorld0 [KEvent.resolveOk 0 [10] 3])) =
      loadMoreItems (kRun kWorld0 [KEvent.resolveOk 0 [10] 3]) :=
  (loadMoreItems_guards [KEvent.resolveOk 0 [10] 3]).2 (by decide) (by decide) (by decide)

/-- The spec's exhaustion scenario: declared total 45, page size 20;
pages one and two, then page three with the last five items, then a
fourth Load More click. -/
def page45Trace1 : List (KEvent Nat) :=
  [KEvent.resolveOk 0 (List.range 20) 45]

def page45Trace2 : List (KEvent Nat) :=
  page45Trace1 ++ [KEvent.clickLoadMore, KEvent.resolveOk 1 (List.range 20) 45]

def page45Trace3 : List (KEvent Nat) :=
  page45Trace2 ++ [KEvent.clickLoadMore, KEvent.resolveOk 2 (List.range 5) 45]

/-- C3. After every successfully applied page result the exhaustion flag
equals `pageItemCount == 0 OR (declaredTotal known AND accumulated length
>= declaredTotal)`, and the Load More affordance is rendered iff the flag
is false; concretely, with declared total 45 and page size 20 the flag is
false after pages one and two, true after page three returns five items,
and a fourth Load More click issues no fetch and changes nothing. -/
theorem exhaustion_rule :
    (∀ (α : Type) (s : KState α) (pageItems : List α) (tot : Nat),
        ((getItemsPageFinish (some (pageItems, tot)) s).1.allItemsLoaded = true ↔
          pageItems.length = 0 ∨
            ∃ n, (getItemsPageFinish (some (pageItems, tot)) s).1.total = TotalVal.num n ∧
              n ≤ (itemsOrEmpty (getItemsPageFinish (some (pageItems, tot)) s).1.items).length)) ∧
    (∀ (α : Type) (s : KState α) (pageItems : List α) (tot : Nat),
        showLoadMore (getItemsPageFinish (some (pageItems, tot)) s).1 =
          !(getItemsPageFinish (some (pageItems, tot)) s).1.allItemsLoaded) ∧
    ((kRun kWorld0 page45Trace1).st.allItemsLoaded = false ∧
     (kRun kWorld0 page45Trace2).st.allItemsLoaded = false ∧
     (kRun kWorld0 page45Trace3).st.allItemsLoaded = true ∧
     showLoadMore (kRun kWorld0 page45Trace1).st = true ∧
     showLoadMore (kRun kWorld0 page45Trace3).st = false ∧
     kStep (kRun kWorld0 page45Trace3) KEvent.clickLoadMore = kRun kWorld0 page45Trace3 ∧
     (kRun kWorld0 page45Trace3).issued.length = 3) := by
  refine ⟨?_, ?_, by decide⟩
  · intro α s pageItems tot
    cases hv : s.items <;>
      simp [getItemsPageFinish, itemsTruthy, itemsOrEmpty, hv]
  · intro α s pageItems tot
    cases hv : s.items <;>
      · simp only [getItemsPageFinish, itemsTruthy, itemsOrEmpty, hv, showLoadMore,
          ItemsVal.isNull, TotalVal.isNull]
        rcases Nat.eq_zero_or_pos pageItems.length with h0 | h0
        · simp [h0]
        · have hne : pageItems.length ≠ 0 := by omega
          simp [hne, List.length_append]

/-- The interleaving refuting claim C1: the initial fetch is followed by a
keystroke `"a"` whose debounce fires and issues the fetch with id 1 under
query `"a"` (epoch 1); a keystroke `"ab"` then advances to epoch 2, whose
own fetch (id 2) resolves and is applied; finally the stale epoch-1 fetch
resolves with item 100 and declared total 5. -/
def staleQueryTrace : List (KEvent Nat) :=
  [KEvent.keystroke 0 "a", KEvent.fireTimer 500, KEvent.keystroke 600 "ab",
   KEvent.fireTimer 1100, KEvent.resolveOk 2 [200] 1, KEvent.resolveOk 1 [100] 5]

/-- C1 counterexample: the fetch with id 1 was issued under the superseded
query `"a"`, yet after it resolves under current query `"ab"` its item 100
appears in the accumulated items and its declared total 5 is adopted —
`getItemsPage` has no epoch comparison, so the claim is false. -/
theorem epoch_discard_cex :
    (kRun kWorld0 staleQueryTrace).issued[1]? = some ⟨1, "a", "", 1⟩ ∧
    (kRun kWorld0 staleQueryTrace).st.query = "ab" ∧
    (kRun kWorld0 staleQueryTrace).st.lastQuery = "ab" ∧
    (kRun kWorld0 staleQueryTrace).st.items = ItemsVal.arr [200, 100] ∧
    (kRun kWorld0 staleQueryTrace).st.total = TotalVal.num 5 := by
  decide

/-- C1 amended: a resolving fetch response is applied unconditionally —
the continuation appends its items to whatever is accumulated and adopts
its declared total, with no epoch comparison; the only staleness
protection is at issue time: the debounce callback issues no fetch when
the query changed during the delay (`query === lastQuery` fails). -/
theorem stale_response_applied_amended :
    (∀ (α : Type) (s : KState α) (pageItems : List α) (tot : Nat),
        (getItemsPageFinish (some (pageItems, tot)) s).1.items =
          ItemsVal.arr (itemsOrEmpty s.items ++ pageItems) ∧
        (getItemsPageFinish (some (pageItems, tot)) s).1.total = TotalVal.num tot) ∧
    (∀ (α : Type) (w : KWorld α) (t : Nat),
        w.st.query ≠ w.st.lastQuery →
          (kStep w (KEvent.fireTimer t)).issued = w.issued ∧
          (kStep w (KEvent.fireTimer t)).pending = w.pending ∧
          (kStep w (KEvent.fireTimer t)).st = w.st) := by
  constructor
  · intro α s pageItems tot
    exact ⟨getItemsPageFinish_ok_items pageItems tot s, rfl⟩
  · intro α w t hne
    rcases htm : w.timer with _ | d
    · have hred : kStep w (KEvent.fireTimer t) = w := by simp [kStep, htm]
      rw [hred]; exact ⟨rfl, rfl, rfl⟩
    · by_cases hd : d ≤ t
      · have hred : kStep w (KEvent.fireTimer t) = { w with timer := none } := by
          simp [kStep, htm, hd, hne]
        rw [hred]; exact ⟨rfl, rfl, rfl⟩
      · have hred : kStep w (KEvent.fireTimer t) = w := by simp [kStep, htm, hd]
        rw [hred]; exact ⟨rfl, rfl, rfl⟩

/-- A world whose debounce timer is pending while `query` has already
moved past `lastQuery`. -/
def mismatchWorld : KWorld Nat :=
  { st := { (kState0 : KState Nat) with query := "b", lastQuery := "a" },
    timer := some 0, pending := [], nextId := 0, issued := [], crashed := false }

/-- Witness for C1 amended: with `query` and `lastQuery` out of agreement,
the firing timer issues no fetch and changes no pagination state. -/
theorem stale_response_applied_amended_witness :
    (kStep mismatchWorld (KEvent.fireTimer 5)).issued = mismatchWorld.issued ∧
    (kStep mismatchWorld (KEvent.fireTimer 5)).pending = mismatchWorld.pending ∧
    (kStep mismatchWorld (KEvent.fireTimer 5)).st = mismatchWorld.st :=
  stale_response_applied_amended.2 Nat mismatchWorld 5 (by decide)

/-- Page two rejects after a successful page one (items 10 and 11,
declared total 5). -/
def failPage2Trace : List (KEvent Nat) :=
  [KEvent.resolveOk 0 [10, 11] 5, KEvent.clickLoadMore, KEvent.resolveFail 1]

/-- The very first page fetch rejects. -/
def failPage1Trace : List (KEvent Nat) :=
  [KEvent.resolveFail 0]

/-- C2 at its failing inputs.  The rejected call's `.catch` returns `[]`,
which is truthy, so the response handler still runs: `total` is clobbered
to `undefined` in both scenarios.  When a previous page is present,
spreading the `undefined` page items throws a `TypeError` that escapes
before `itemsLoading = false`, so the loading flag is stuck true and every
further Load More call is a permanent no-op (the failed page can never be
retried, and the cursor stays on the advanced page).  When the first page
fails, `items` becomes `undefined` and `allItemsLoaded` becomes true, so
the Load More affordance disappears instead of allowing a retry. -/
theorem page_fetch_failure_behavior :
    ((kRun kWorld0 failPage2Trace).crashed = true ∧
     (kRun kWorld0 failPage2Trace).st.itemsLoading = true ∧
     (kRun kWorld0 failPage2Trace).st.page = 2 ∧
     (kRun kWorld0 failPage2Trace).st.items = ItemsVal.arr [10, 11] ∧
     (kRun kWorld0 failPage2Trace).st.total = TotalVal.jsUndef ∧
     kStep (kRun kWorld0 failPage2Trace) KEvent.clickLoadMore =
       kRun kWorld0 failPage2Trace ∧
     (kRun kWorld0 failPage2Trace).issued = [⟨0, "", "", 1⟩, ⟨1, "", "", 2⟩]) ∧
    ((kRun kWorld0 failPage1Trace).st.items = ItemsVal.jsUndef ∧
     (kRun kWorld0 failPage1Trace).st.total = TotalVal.jsUndef ∧
     (kRun kWorld0 failPage1Trace).st.allItemsLoaded = true ∧
     showLoadMore (kRun kWorld0 failPage1Trace).st = false) := by
  decide

end Workspace
